import Mathlib

/-!
# SatView — verification of the pass-notification pipeline

Shallow embedding of `src/app.py` (a Flask app that predicts Landsat 8/9
overpasses and schedules email reminders).  Timestamps are modelled as
integers counting microseconds of UTC since the epoch, matching Python's
`datetime` resolution; the serialized form `'%Y-%m-%d %H:%M:%S'` is
modelled as the integer number of whole seconds it denotes (the string is
a bijective rendering of that integer, and every consumer re-parses it
with the same format).  Coordinates are modelled as rationals, email
addresses and satellite names as strings.

External collaborators (skyfield ephemeris, SMTP, folium, APScheduler's
dispatch loop) appear only at their interface boundary: the ephemeris
result is an input (one event list per satellite), email sends are
best-effort and carry no data relevant to the claims, and the
dispatcher's misfire-grace semantics is modelled from the spec since the
library is not part of the repository.
-/

set_option autoImplicit false

namespace SatView

/-- One microsecond-resolution UTC timestamp (Python `datetime`). -/
abbrev Micro := Int

/-- `strftime('%Y-%m-%d %H:%M:%S')`: rendering a `datetime` keeps only the
whole-second fields, i.e. the string denotes `⌊t / 10^6⌋` seconds
(`datetime` stores a nonnegative sub-second `microsecond` field, so the
rendered seconds are the floor).  `src/app.py` lines 40, 47, 140. -/
def fmtTimestamp (t : Micro) : Int :=
  Int.fdiv t 1000000

/-- `datetime.strptime(s, '%Y-%m-%d %H:%M:%S')`: the parsed `datetime`
has microsecond 0, i.e. denotes `s` whole seconds.  `src/app.py`
lines 46, 82, 136. -/
def parseTimestamp (s : Int) : Micro :=
  s * 1000000

/-- `t` truncated to whole seconds (microsecond field zeroed). -/
def truncSec (t : Micro) : Micro :=
  1000000 * Int.fdiv t 1000000

/-! ## PassOracle (`get_next_pass_times`, `src/app.py` lines 26–42)

A satellite is its TLE name together with the event list that
`satellite.find_events(location, t0, t1, altitude_degrees=30.0)` returns
for the 48-hour window `[now, now + 2 days]`: chronological
`(time, eventKind)` pairs with kind 0 = rise, 1 = culminate, 2 = set.
The skyfield computation itself is external (§6 of the design), so the
event lists are inputs here. -/

/-- Event kind as produced by skyfield's `find_events` (0 = rise). -/
abbrev EventKind := Nat

structure Satellite where
  name : String
  events : List (Micro × EventKind)

/-- The inner `for ti, event in zip(times, events): if event == 0: … break`
loop: the first rise event's time, if any. -/
def firstRiseTime : List (Micro × EventKind) → Option Micro
  | [] => none
  | (t, e) :: rest => if e = 0 then some t else firstRiseTime rest

/-- `get_next_pass_times` (lines 32–42): for each satellite in ephemeris
order, append `(satellite.name, pass_time.strftime(...))` for the first
rise event and `break`; satellites with no rise event contribute
nothing.  The accumulator mirrors `next_passes.append`. -/
def get_next_pass_times_aux (acc : List (String × Int)) :
    List Satellite → List (String × Int)
  | [] => acc
  | s :: rest =>
    match firstRiseTime s.events with
    | some t => get_next_pass_times_aux (acc ++ [(s.name, fmtTimestamp t)]) rest
    | none => get_next_pass_times_aux acc rest

def get_next_pass_times (sats : List Satellite) : List (String × Int) :=
  get_next_pass_times_aux [] sats

/-- Specification-side description of the oracle: one entry per satellite
that has a rise event, in ephemeris-source order. -/
def oracleSpec (sats : List Satellite) : List (String × Int) :=
  sats.filterMap fun s => (firstRiseTime s.events).map fun t => (s.name, fmtTimestamp t)

/-! ## Interest-set matching (`src/app.py` lines 134–135)

Python's `"LANDSAT 8" in satellite_name_normalized` is substring
containment; `matchAt`/`hasSub` implement it over character lists, and
`containsSub_iff` characterizes it as the existence of a decomposition
`s = l ++ pat ++ r`, the specification-side reading of "contains as a
substring".  `.strip().upper()` is modelled over character lists with
the core `Char` operations (the interest markers and satellite TLE
names are ASCII, where these agree with Python). -/

/-- Does `pat` occur at the front of `s`? -/
def matchAt : List Char → List Char → Bool
  | [], _ => true
  | _ :: _, [] => false
  | a :: pat, b :: s => a = b && matchAt pat s

/-- Does `pat` occur anywhere in `s`?  (Python's `in` on strings.) -/
def hasSub (pat : List Char) : List Char → Bool
  | [] => matchAt pat []
  | b :: s => matchAt pat (b :: s) || hasSub pat s

/-- `pat in s` for a string pattern over a character list. -/
def containsSub (s : List Char) (pat : String) : Bool :=
  hasSub pat.data s

/-- `pat` occurs in `s` as a substring (specification-side reading). -/
def SubstringOf (pat : String) (s : List Char) : Prop :=
  ∃ l r, s = l ++ pat.data ++ r

/-- Python `str.strip()` with no argument: remove leading and trailing
whitespace (the repository's inputs are ASCII TLE names, where
`Char.isWhitespace` agrees with Python). -/
def pyStrip (s : List Char) : List Char :=
  ((s.dropWhile Char.isWhitespace).reverse.dropWhile Char.isWhitespace).reverse

/-- Python `str.upper()` on ASCII text (`Char.toUpper` maps `a`–`z` to
`A`–`Z` and fixes everything else, as Python does on ASCII). -/
def pyUpper (s : List Char) : List Char :=
  s.map Char.toUpper

/-- `satellite_name.strip().upper()` (line 134). -/
def normalizeName (name : String) : List Char :=
  pyUpper (pyStrip name.data)

/-- The interest test of line 135:
`"LANDSAT 8" in n or "LANDSAT 9" in n` on the normalized name. -/
def interestMatch (name : String) : Bool :=
  containsSub (normalizeName name) "LANDSAT 8" || containsSub (normalizeName name) "LANDSAT 9"

/-! ## NotificationScheduler (`schedule_notification`, `src/app.py` lines 81–87)

`scheduler.add_job(func=send_notification, trigger='date',
run_date=notification_time, args=[user_id, message],
misfire_grace_time=3600)` creates a fresh job with a freshly generated
unique id (APScheduler generates a new id for every `add_job` call with
no explicit `id`); fresh ids are modelled by a counter. -/

structure Job where
  id : Nat
  run_date : Micro
  /-- `misfire_grace_time`, in seconds. -/
  misfire_grace_time : Int
  user_id : String
  message : String
  deriving DecidableEq

structure SchedState where
  nextId : Nat
  jobs : List Job
  deriving DecidableEq

/-- `schedule_notification(notification_time_str, user_id, message)`:
parse the fire time and add a one-shot job with a 3600-second grace. -/
def schedule_notification (st : SchedState) (timeStr : Int) (uid msg : String) :
    SchedState :=
  { nextId := st.nextId + 1
    jobs := st.jobs ++ [⟨st.nextId, parseTimestamp timeStr, 3600, uid, msg⟩] }

/-! ## The request handler (`home`, `src/app.py` lines 116–162)

The POST branch: parse the four form fields (`float`/`int` raise
`ValueError` on malformed text, caught by the `except` at line 159 —
modelled as `Option`), send a best-effort confirmation email (no data
flow), run the oracle, filter, schedule, and render one of the three
templates.  The latitude/longitude values are never range-checked and,
beyond parsing, are used only by the external collaborators. -/

/-- A POST request with each numeric field replaced by the result of the
Python conversion applied to its form text: `none` when `float(...)` /
`int(...)` raises `ValueError`. -/
structure RawRequest where
  latitude : Option ℚ
  longitude : Option ℚ
  notification_time : Option Int
  user_id : String

/-- The rendered template, with the data the templates receive. -/
inductive Outcome where
  /-- `error.html` rendered from the `except` branch (line 161). -/
  | validationError : Outcome
  /-- `error.html` with the fixed no-passes message (line 148). -/
  | noPasses : Outcome
  /-- `confirmation.html` with `scheduled_notifications` and
  `data_availabilities` (lines 153–158). -/
  | success : List (String × Int) → List (String × Int) → Outcome
  deriving DecidableEq

/-- `estimate_data_availability` (lines 45–47): parse the pass-time
string, add 6 hours, re-render. -/
def estimate_data_availability (passStr : Int) : Int :=
  fmtTimestamp (parseTimestamp passStr + 6 * 3600 * 1000000)

/-- The `for satellite_name, pass_time_str in next_passes:` loop of
lines 133–145, threading the scheduler state and accumulating
`scheduled_notifications` and `data_availabilities` in order. -/
def process_passes (lead : Int) (now : Micro) (uid : String) (st : SchedState) :
    List (String × Int) → SchedState × List (String × Int) × List (String × Int)
  | [] => (st, [], [])
  | (name, passStr) :: rest =>
    if interestMatch name then
      let pass_time := parseTimestamp passStr
      let notify_time := pass_time - lead * 60 * 1000000
      if notify_time > now then
        let notify_str := fmtTimestamp notify_time
        let msg := name ++ " will pass over your location at " ++ toString passStr ++ " UTC"
        let st' := schedule_notification st notify_str uid msg
        let r := process_passes lead now uid st' rest
        (r.1, (name, notify_str) :: r.2.1, (name, estimate_data_availability passStr) :: r.2.2)
      else process_passes lead now uid st rest
    else process_passes lead now uid st rest

/-- Result of one POST request: the scheduler state after the request,
the rendered outcome, and whether `display_grid_on_map` ran
(`map.html` written, line 151). -/
structure HomeResult where
  sched : SchedState
  outcome : Outcome
  mapRendered : Bool
  deriving DecidableEq

/-- The POST branch of `home` (lines 118–161).  `sats` is the ephemeris
provider's answer (one event list per satellite) and `now` is
`datetime.utcnow()` at line 132; both are external inputs.  A parse
failure raises before any scheduling and is caught at line 159. -/
def home (req : RawRequest) (sats : List Satellite) (now : Micro)
    (st : SchedState) : HomeResult :=
  match req.latitude, req.longitude, req.notification_time with
  | some _, some _, some lead =>
    let next_passes := get_next_pass_times sats
    let r := process_passes lead now req.user_id st next_passes
    if r.2.1.isEmpty then
      ⟨r.1, Outcome.noPasses, false⟩
    else
      ⟨r.1, Outcome.success r.2.1 r.2.2, true⟩
  | _, _, _ => ⟨st, Outcome.validationError, false⟩

/-! ## Dispatcher semantics

Modelled from the spec: the background dispatch loop is APScheduler's,
not part of the repository.  §4.3/§8 of the design: a Pending job
evaluated at `now` fires when `fireAtUtc ≤ now ≤ fireAtUtc +
graceWindowSeconds` (the boundary fires), expires when `now > fireAtUtc
+ graceWindowSeconds`, and both outcomes are terminal; evaluation
before `fireAtUtc` leaves it Pending.  Times are in microseconds, the
grace field in seconds, matching `misfire_grace_time=3600`. -/

inductive JobState where
  | pending
  | fired
  | expired
  deriving DecidableEq

/-- One evaluation of a job by the dispatch loop at instant `now`. -/
def evaluateJob (j : Job) (now : Micro) : JobState → JobState
  | JobState.pending =>
    if now < j.run_date then JobState.pending
    else if now - j.run_date ≤ j.misfire_grace_time * 1000000 then JobState.fired
    else JobState.expired
  | s => s

/-- How many times the job's action runs over a sequence of dispatcher
evaluations: each transition into `fired` runs the action once. -/
def countFiresFrom (j : Job) : JobState → List Micro → Nat
  | _, [] => 0
  | s, t :: ts =>
    (if s ≠ JobState.fired ∧ evaluateJob j t s = JobState.fired then 1 else 0) +
      countFiresFrom j (evaluateJob j t s) ts

/-! ## Basic facts about the serialized times -/

theorem parse_fmt (t : Micro) : parseTimestamp (fmtTimestamp t) = truncSec t := by
  simp [parseTimestamp, fmtTimestamp, truncSec, Int.mul_comm]

theorem parse_fmt_of_whole (t : Micro) (h : (1000000 : Int) ∣ t) :
    parseTimestamp (fmtTimestamp t) = t := by
  obtain ⟨k, rfl⟩ := h
  rw [parse_fmt, truncSec, Int.mul_fdiv_cancel_left _ (by decide)]

theorem dvd_notify (s lead : Int) :
    (1000000 : Int) ∣ parseTimestamp s - lead * 60 * 1000000 :=
  ⟨s - lead * 60, by unfold parseTimestamp; ring⟩

theorem parse_fmt_notify (s lead : Int) :
    parseTimestamp (fmtTimestamp (parseTimestamp s - lead * 60 * 1000000)) =
      parseTimestamp s - lead * 60 * 1000000 :=
  parse_fmt_of_whole _ (dvd_notify s lead)

theorem parse_estimate (s : Int) :
    parseTimestamp (estimate_data_availability s) =
      parseTimestamp s + 6 * 3600 * 1000000 := by
  unfold estimate_data_availability
  exact parse_fmt_of_whole _ ⟨s + 6 * 3600, by unfold parseTimestamp; ring⟩

/-! ## Facts about the oracle -/

theorem get_next_pass_times_aux_eq (acc : List (String × Int)) (sats : List Satellite) :
    get_next_pass_times_aux acc sats = acc ++ oracleSpec sats := by
  induction sats generalizing acc with
  | nil => simp [get_next_pass_times_aux, oracleSpec]
  | cons s rest ih =>
    cases h : firstRiseTime s.events with
    | none => simp [get_next_pass_times_aux, h, ih, oracleSpec]
    | some t => simp [get_next_pass_times_aux, h, ih, oracleSpec]

theorem get_next_pass_times_eq (sats : List Satellite) :
    get_next_pass_times sats = oracleSpec sats := by
  simpa using get_next_pass_times_aux_eq [] sats

theorem oracle_mem {sats : List Satellite} {p : String × Int}
    (h : p ∈ get_next_pass_times sats) :
    ∃ s ∈ sats, ∃ t, firstRiseTime s.events = some t ∧ p = (s.name, fmtTimestamp t) := by
  rw [get_next_pass_times_eq, oracleSpec, List.mem_filterMap] at h
  obtain ⟨s, hs, hmap⟩ := h
  cases ht : firstRiseTime s.events with
  | none => rw [ht] at hmap; exact Option.noConfusion hmap
  | some t =>
    rw [ht] at hmap
    exact ⟨s, hs, t, ht, (Option.some.inj hmap).symm⟩

theorem firstRiseTime_iff (evs : List (Micro × EventKind)) (t : Micro) :
    firstRiseTime evs = some t ↔
      ∃ pre post, evs = pre ++ (t, 0) :: post ∧ ∀ e ∈ pre, e.2 ≠ 0 := by
  induction evs with
  | nil =>
    constructor
    · intro h; exact Option.noConfusion h
    · rintro ⟨pre, post, h, _⟩
      exact absurd (List.append_eq_nil.mp h.symm).2 (List.cons_ne_nil _ _)
  | cons hd rest ih =>
    obtain ⟨t', e'⟩ := hd
    by_cases he : e' = 0
    · subst he
      simp only [firstRiseTime, if_pos rfl]
      constructor
      · intro h
        rw [Option.some.inj h]
        exact ⟨[], rest, rfl, by simp⟩
      · rintro ⟨pre, post, h, hpre⟩
        cases pre with
        | nil =>
          obtain ⟨h1, _⟩ := List.cons.inj h
          rw [(Prod.mk.inj h1).1]
          simp
        | cons q pre2 =>
          obtain ⟨h1, _⟩ := List.cons.inj h
          have hq : q.2 ≠ 0 := hpre q (List.mem_cons_self _ _)
          rw [← h1] at hq
          exact absurd rfl hq
    · simp only [firstRiseTime, if_neg he]
      rw [ih]
      constructor
      · rintro ⟨pre, post, rfl, hpre⟩
        refine ⟨(t', e') :: pre, post, rfl, ?_⟩
        intro e hme
        rcases List.mem_cons.mp hme with rfl | hm2
        · exact he
        · exact hpre e hm2
      · rintro ⟨pre, post, h, hpre⟩
        cases pre with
        | nil =>
          obtain ⟨h1, _⟩ := List.cons.inj h
          exact absurd (Prod.mk.inj h1).2 he
        | cons q pre' =>
          obtain ⟨h1, h2⟩ := List.cons.inj h
          exact ⟨pre', post, h2, fun e hme => hpre e (List.mem_cons_of_mem _ hme)⟩

/-! ## Facts about substring matching -/

theorem matchAt_iff (pat s : List Char) :
    matchAt pat s = true ↔ ∃ r, s = pat ++ r := by
  induction pat generalizing s with
  | nil => simp [matchAt]
  | cons a pat ih =>
    cases s with
    | nil => simp [matchAt]
    | cons b s =>
      simp only [matchAt, Bool.and_eq_true, decide_eq_true_eq, ih, List.cons_append,
        List.cons.injEq]
      constructor
      · rintro ⟨rfl, r, rfl⟩; exact ⟨r, rfl, rfl⟩
      · rintro ⟨r, rfl, rfl⟩; exact ⟨rfl, r, rfl⟩

theorem hasSub_iff (pat s : List Char) :
    hasSub pat s = true ↔ ∃ l r, s = l ++ pat ++ r := by
  induction s with
  | nil =>
    simp only [hasSub, matchAt_iff]
    constructor
    · rintro ⟨r, h⟩; exact ⟨[], r, by simpa using h⟩
    · rintro ⟨l, r, h⟩
      rcases List.append_eq_nil.mp (List.append_eq_nil.mp h.symm).1 with ⟨rfl, rfl⟩
      exact ⟨r, by simpa using h⟩
  | cons b s ih =>
    simp only [hasSub, Bool.or_eq_true, matchAt_iff, ih]
    constructor
    · rintro (⟨r, h⟩ | ⟨l, r, rfl⟩)
      · exact ⟨[], r, by simpa using h⟩
      · exact ⟨b :: l, r, rfl⟩
    · rintro ⟨l, r, h⟩
      cases l with
      | nil => exact Or.inl ⟨r, by simpa using h⟩
      | cons c l => exact Or.inr ⟨l, r, (List.cons.inj h).2⟩

theorem containsSub_iff (s : List Char) (pat : String) :
    containsSub s pat = true ↔ SubstringOf pat s :=
  hasSub_iff pat.data s

/-! ## Facts about the dispatcher model -/

theorem evaluateJob_fired (j : Job) (t : Micro) :
    evaluateJob j t JobState.fired = JobState.fired := rfl

theorem evaluateJob_expired (j : Job) (t : Micro) :
    evaluateJob j t JobState.expired = JobState.expired := rfl

theorem evaluateJob_pending (j : Job) (now : Micro) :
    evaluateJob j now JobState.pending =
      if now < j.run_date then JobState.pending
      else if now - j.run_date ≤ j.misfire_grace_time * 1000000 then JobState.fired
      else JobState.expired := rfl

theorem countFiresFrom_fired (j : Job) (ts : List Micro) :
    countFiresFrom j JobState.fired ts = 0 := by
  induction ts with
  | nil => rfl
  | cons t ts ih => simp [countFiresFrom, evaluateJob_fired, ih]

theorem countFiresFrom_expired (j : Job) (ts : List Micro) :
    countFiresFrom j JobState.expired ts = 0 := by
  induction ts with
  | nil => rfl
  | cons t ts ih => simp [countFiresFrom, evaluateJob_expired, ih]

theorem evaluateJob_in_window (j : Job) (t : Micro) (h1 : j.run_date ≤ t)
    (h2 : t ≤ j.run_date + j.misfire_grace_time * 1000000) :
    evaluateJob j t JobState.pending = JobState.fired := by
  have hc1 : ¬ t < j.run_date := not_lt.mpr h1
  have hc2 : t - j.run_date ≤ j.misfire_grace_time * 1000000 := by linarith
  rw [evaluateJob_pending, if_neg hc1, if_pos hc2]

theorem evaluateJob_past_window (j : Job) (t : Micro)
    (h : j.run_date + j.misfire_grace_time * 1000000 < t)
    (h0 : 0 ≤ j.misfire_grace_time) :
    evaluateJob j t JobState.pending = JobState.expired := by
  have hg : (0 : Int) ≤ j.misfire_grace_time * 1000000 := mul_nonneg h0 (by norm_num)
  have hc1 : ¬ t < j.run_date := not_lt.mpr (by linarith)
  have hc2 : ¬ t - j.run_date ≤ j.misfire_grace_time * 1000000 := not_le.mpr (by linarith)
  rw [evaluateJob_pending, if_neg hc1, if_neg hc2]

theorem countFiresFrom_in_window (j : Job) (t : Micro) (ts : List Micro)
    (h1 : j.run_date ≤ t) (h2 : t ≤ j.run_date + j.misfire_grace_time * 1000000) :
    countFiresFrom j JobState.pending (t :: ts) = 1 := by
  simp [countFiresFrom, evaluateJob_in_window j t h1 h2, countFiresFrom_fired]

theorem countFiresFrom_past_window (j : Job) (t : Micro) (ts : List Micro)
    (h : j.run_date + j.misfire_grace_time * 1000000 < t)
    (h0 : 0 ≤ j.misfire_grace_time) :
    countFiresFrom j JobState.pending (t :: ts) = 0 := by
  simp [countFiresFrom, evaluateJob_past_window j t h h0, countFiresFrom_expired]

/-! ## Structure of the filter loop's output -/

theorem process_passes_mem_sched (lead : Int) (now : Micro) (uid : String) :
    ∀ (passes : List (String × Int)) (st : SchedState) (p : String × Int),
      p ∈ (process_passes lead now uid st passes).2.1 →
      ∃ passStr, (p.1, passStr) ∈ passes ∧ interestMatch p.1 = true ∧
        parseTimestamp passStr - lead * 60 * 1000000 > now ∧
        p.2 = fmtTimestamp (parseTimestamp passStr - lead * 60 * 1000000) := by
  intro passes
  induction passes with
  | nil => intro st p hp; simp [process_passes] at hp
  | cons hd rest ih =>
    intro st p hp
    obtain ⟨name, passStr⟩ := hd
    by_cases hm : interestMatch name
    · by_cases ht : parseTimestamp passStr - lead * 60 * 1000000 > now
      · simp only [process_passes, hm, if_true, ht, List.mem_cons] at hp
        rcases hp with rfl | hp
        · exact ⟨passStr, List.mem_cons_self _ _, hm, ht, rfl⟩
        · obtain ⟨q, hq, h1, h2, h3⟩ := ih _ p hp
          exact ⟨q, List.mem_cons_of_mem _ hq, h1, h2, h3⟩
      · simp only [process_passes, hm, if_true, ht, if_false] at hp
        obtain ⟨q, hq, h1, h2, h3⟩ := ih _ p hp
        exact ⟨q, List.mem_cons_of_mem _ hq, h1, h2, h3⟩
    · simp only [process_passes, hm, if_false] at hp
      obtain ⟨q, hq, h1, h2, h3⟩ := ih _ p hp
      exact ⟨q, List.mem_cons_of_mem _ hq, h1, h2, h3⟩

theorem process_passes_mem_da (lead : Int) (now : Micro) (uid : String) :
    ∀ (passes : List (String × Int)) (st : SchedState) (p : String × Int),
      p ∈ (process_passes lead now uid st passes).2.2 →
      ∃ passStr, (p.1, passStr) ∈ passes ∧ interestMatch p.1 = true ∧
        parseTimestamp passStr - lead * 60 * 1000000 > now ∧
        p.2 = estimate_data_availability passStr := by
  intro passes
  induction passes with
  | nil => intro st p hp; simp [process_passes] at hp
  | cons hd rest ih =>
    intro st p hp
    obtain ⟨name, passStr⟩ := hd
    by_cases hm : interestMatch name
    · by_cases ht : parseTimestamp passStr - lead * 60 * 1000000 > now
      · simp only [process_passes, hm, if_true, ht, List.mem_cons] at hp
        rcases hp with rfl | hp
        · exact ⟨passStr, List.mem_cons_self _ _, hm, ht, rfl⟩
        · obtain ⟨q, hq, h1, h2, h3⟩ := ih _ p hp
          exact ⟨q, List.mem_cons_of_mem _ hq, h1, h2, h3⟩
      · simp only [process_passes, hm, if_true, ht, if_false] at hp
        obtain ⟨q, hq, h1, h2, h3⟩ := ih _ p hp
        exact ⟨q, List.mem_cons_of_mem _ hq, h1, h2, h3⟩
    · simp only [process_passes, hm, if_false] at hp
      obtain ⟨q, hq, h1, h2, h3⟩ := ih _ p hp
      exact ⟨q, List.mem_cons_of_mem _ hq, h1, h2, h3⟩

theorem process_passes_jobs_mem (lead : Int) (now : Micro) (uid : String) :
    ∀ (passes : List (String × Int)) (st : SchedState) (j : Job),
      j ∈ (process_passes lead now uid st passes).1.jobs →
      j ∈ st.jobs ∨ j.run_date > now := by
  intro passes
  induction passes with
  | nil => intro st j hj; exact Or.inl hj
  | cons hd rest ih =>
    intro st j hj
    obtain ⟨name, passStr⟩ := hd
    by_cases hm : interestMatch name
    · by_cases ht : parseTimestamp passStr - lead * 60 * 1000000 > now
      · simp only [process_passes, hm, if_true, ht] at hj
        rcases ih _ j hj with hmem | hgt
        · simp only [schedule_notification, List.mem_append, List.mem_singleton] at hmem
          rcases hmem with hmem | rfl
          · exact Or.inl hmem
          · exact Or.inr (by simpa [parse_fmt_notify] using ht)
        · exact Or.inr hgt
      · simp only [process_passes, hm, if_true, ht, if_false] at hj
        exact ih _ j hj
    · simp only [process_passes, hm, if_false] at hj
      exact ih _ j hj

theorem process_passes_empty_state (lead : Int) (now : Micro) (uid : String) :
    ∀ (passes : List (String × Int)) (st : SchedState),
      (process_passes lead now uid st passes).2.1 = [] →
      (process_passes lead now uid st passes).1 = st := by
  intro passes
  induction passes with
  | nil => intro st _; rfl
  | cons hd rest ih =>
    intro st hempty
    obtain ⟨name, passStr⟩ := hd
    by_cases hm : interestMatch name
    · by_cases ht : parseTimestamp passStr - lead * 60 * 1000000 > now
      · exact absurd hempty
          (by simp only [process_passes, hm, if_true, ht]; exact List.cons_ne_nil _ _)
      · simp only [process_passes, hm, if_true, ht, if_false] at hempty ⊢
        exact ih _ hempty
    · simp only [process_passes, hm, if_false] at hempty ⊢
      exact ih _ hempty

theorem process_passes_jobs_length (lead : Int) (now : Micro) (uid : String) :
    ∀ (passes : List (String × Int)) (st : SchedState),
      (process_passes lead now uid st passes).1.jobs.length =
        st.jobs.length + (process_passes lead now uid st passes).2.1.length := by
  intro passes
  induction passes with
  | nil => intro st; rfl
  | cons hd rest ih =>
    intro st
    obtain ⟨name, passStr⟩ := hd
    by_cases hm : interestMatch name
    · by_cases ht : parseTimestamp passStr - lead * 60 * 1000000 > now
      · simp only [process_passes, hm, if_true, ht, List.length_cons]
        rw [ih]
        simp [schedule_notification]
        omega
      · simp only [process_passes, hm, if_true, ht, if_false]
        exact ih _
    · simp only [process_passes, hm, if_false]
      exact ih _

/-! ## The claims -/

/-- C1: for every list of pass events, interest set match, reference time
and lead, the filter loop never emits a scheduled notification whose fire
time is ≤ the reference time `now`: every emitted pair's fire time is
strictly greater than `now`, every job the loop adds to the scheduler has
`run_date > now`, and an event whose computed fire time is ≤ `now` is
dropped, contributing nothing. -/
theorem C1_filter_emits_only_future (lead : Int) (now : Micro) (uid : String)
    (st : SchedState) (passes : List (String × Int)) :
    (∀ p ∈ (process_passes lead now uid st passes).2.1, parseTimestamp p.2 > now) ∧
    (∀ j ∈ (process_passes lead now uid st passes).1.jobs,
      j ∈ st.jobs ∨ j.run_date > now) ∧
    (∀ (name : String) (passStr : Int) (rest : List (String × Int)),
      interestMatch name = true →
      parseTimestamp passStr - lead * 60 * 1000000 ≤ now →
      process_passes lead now uid st ((name, passStr) :: rest) =
        process_passes lead now uid st rest) := by
  refine ⟨?_, ?_, ?_⟩
  · intro p hp
    obtain ⟨q, _, _, hgt, hp2⟩ := process_passes_mem_sched lead now uid passes st p hp
    rw [hp2, parse_fmt_notify]
    exact hgt
  · exact fun j hj => process_passes_jobs_mem lead now uid passes st j hj
  · intro name passStr rest hm hle
    simp only [process_passes, hm, if_true]
    rw [if_neg (not_lt.mpr hle)]

/-- Witness for C1 at concrete inputs: the pair emitted for a pass at
3600 s with zero lead fires strictly after reference time 0, and an event
whose computed fire time equals the reference time is dropped. -/
theorem C1_witness :
    parseTimestamp ("LANDSAT 8", (3600 : Int)).2 > (0 : Micro) ∧
    process_passes 0 0 "u" ⟨0, []⟩ [("LANDSAT 8", 0)] =
      process_passes 0 0 "u" ⟨0, []⟩ [] :=
  ⟨(C1_filter_emits_only_future 0 0 "u" ⟨0, []⟩ [("LANDSAT 8", 3600)]).1
      ("LANDSAT 8", 3600) (by decide),
    (C1_filter_emits_only_future 0 0 "u" ⟨0, []⟩ [("LANDSAT 8", 0)]).2.2
      "LANDSAT 8" 0 [] (by decide) (by decide)⟩

/-- C2: every data-availability estimate produced by the pipeline is the
pass event's rise time plus exactly 6 hours: `estimate_data_availability`
adds exactly 6 h to the serialized rise time, and every pair in the
`data_availabilities` list produced by the filter loop comes from an input
pass event whose rise time it exceeds by exactly 6 h. -/
theorem C2_data_availability (lead : Int) (now : Micro) (uid : String)
    (st : SchedState) (passes : List (String × Int)) :
    (∀ s : Int, parseTimestamp (estimate_data_availability s) =
      parseTimestamp s + 6 * 3600 * 1000000) ∧
    (∀ p ∈ (process_passes lead now uid st passes).2.2,
      ∃ passStr, (p.1, passStr) ∈ passes ∧
        parseTimestamp p.2 = parseTimestamp passStr + 6 * 3600 * 1000000) := by
  refine ⟨parse_estimate, ?_⟩
  intro p hp
  obtain ⟨q, hq, _, _, hp2⟩ := process_passes_mem_da lead now uid passes st p hp
  exact ⟨q, hq, by rw [hp2, parse_estimate]⟩

/-- Witness for C2: the availability pair emitted for a pass at 100 s is
6 hours after it. -/
theorem C2_witness :
    ∃ passStr, (("LANDSAT 9", (21700 : Int)).1, passStr) ∈ [("LANDSAT 9", (100 : Int))] ∧
      parseTimestamp ("LANDSAT 9", (21700 : Int)).2 =
        parseTimestamp passStr + 6 * 3600 * 1000000 :=
  (C2_data_availability 0 0 "u" ⟨0, []⟩ [("LANDSAT 9", 100)]).2
    ("LANDSAT 9", 21700) (by decide)

/-- C3: the interest filter keeps a satellite identifier exactly when its
trimmed, uppercased form contains `"LANDSAT 8"` or `"LANDSAT 9"` as a
substring; `"landsat 9 "` and `"LANDSAT 9 (PRIME)"` match, `"LANDSAT 7"`
does not; and the filter loop drops a non-matching event entirely. -/
theorem C3_interest_matching :
    (∀ name : String, interestMatch name = true ↔
      (SubstringOf "LANDSAT 8" (normalizeName name) ∨
        SubstringOf "LANDSAT 9" (normalizeName name))) ∧
    interestMatch "landsat 9 " = true ∧
    interestMatch "LANDSAT 9 (PRIME)" = true ∧
    interestMatch "LANDSAT 7" = false ∧
    (∀ (lead : Int) (now : Micro) (uid : String) (st : SchedState)
        (name : String) (passStr : Int) (rest : List (String × Int)),
      interestMatch name = false →
      process_passes lead now uid st ((name, passStr) :: rest) =
        process_passes lead now uid st rest) := by
  refine ⟨?_, by decide, by decide, by decide, ?_⟩
  · intro name
    rw [interestMatch, Bool.or_eq_true, containsSub_iff, containsSub_iff]
  · intro lead now uid st name passStr rest hm
    simp [process_passes, hm]

/-- Witness for C3: an event for `"NOAA 19"` is dropped by the loop. -/
theorem C3_witness :
    process_passes 0 0 "u" ⟨0, []⟩ [("NOAA 19", 100)] =
      process_passes 0 0 "u" ⟨0, []⟩ [] :=
  C3_interest_matching.2.2.2.2 0 0 "u" ⟨0, []⟩ "NOAA 19" 100 [] (by decide)

/-- C4: the oracle emits, per satellite of the ephemeris source, at most
one pass — the first rise (kind 0) event of that satellite's event
sequence — drops satellites with no rise event, and keeps
ephemeris-source order: its output is exactly the source-ordered
`filterMap` of the first-rise times (`oracleSpec`), its length never
exceeds the satellite count, `firstRiseTime` returns precisely the
earliest kind-0 entry, and a concrete two-satellite input shows the
output need not be chronological. -/
theorem C4_oracle_shape :
    (∀ sats : List Satellite, get_next_pass_times sats = oracleSpec sats) ∧
    (∀ sats : List Satellite, (get_next_pass_times sats).length ≤ sats.length) ∧
    (∀ (evs : List (Micro × EventKind)) (t : Micro),
      firstRiseTime evs = some t ↔
        ∃ pre post, evs = pre ++ (t, 0) :: post ∧ ∀ e ∈ pre, e.2 ≠ 0) ∧
    get_next_pass_times [⟨"A", [(2000000, 0)]⟩, ⟨"B", [(1000000, 0)]⟩] =
      [("A", 2), ("B", 1)] := by
  refine ⟨get_next_pass_times_eq, ?_, firstRiseTime_iff, by decide⟩
  intro sats
  rw [get_next_pass_times_eq, oracleSpec]
  exact List.length_filterMap_le _ _

/-- Witness for C4: the first-rise characterization applied at a
concrete event list — the kind-0 event at 7 µs is the first rise even
though a non-rise event precedes it. -/
theorem C4_witness :
    firstRiseTime [((5 : Micro), (1 : EventKind)), (7, 0)] = some 7 :=
  (C4_oracle_shape.2.2.1 [(5, 1), (7, 0)] 7).mpr ⟨[(5, 1)], [], rfl, by decide⟩

/-- C5: a job scheduled by `schedule_notification` for fire time `T`
carries a 3600-second grace; first evaluated by the dispatcher at `t`
with `T ≤ t ≤ T + 3600 s` it fires exactly once regardless of later
evaluations (the boundary `t = T + 3600 s` fires), while first evaluated
at `t > T + 3600 s` it expires and never fires. -/
theorem C5_grace_window (st : SchedState) (timeStr : Int) (uid msg : String)
    (t : Micro) (ts : List Micro) :
    (schedule_notification st timeStr uid msg).jobs =
      st.jobs ++ [⟨st.nextId, parseTimestamp timeStr, 3600, uid, msg⟩] ∧
    (parseTimestamp timeStr ≤ t → t ≤ parseTimestamp timeStr + 3600 * 1000000 →
      countFiresFrom ⟨st.nextId, parseTimestamp timeStr, 3600, uid, msg⟩
        JobState.pending (t :: ts) = 1) ∧
    (parseTimestamp timeStr + 3600 * 1000000 < t →
      evaluateJob ⟨st.nextId, parseTimestamp timeStr, 3600, uid, msg⟩ t
          JobState.pending = JobState.expired ∧
      countFiresFrom ⟨st.nextId, parseTimestamp timeStr, 3600, uid, msg⟩
        JobState.pending (t :: ts) = 0) := by
  refine ⟨rfl, ?_, ?_⟩
  · intro h1 h2
    exact countFiresFrom_in_window _ t ts h1 h2
  · intro h
    exact ⟨evaluateJob_past_window _ t h (by norm_num),
      countFiresFrom_past_window _ t ts h (by norm_num)⟩

/-- Witness for C5: with fire time 0 the boundary evaluation at exactly
3600 s fires once, and an evaluation 1 µs past the boundary never
fires. -/
theorem C5_witness :
    countFiresFrom ⟨0, parseTimestamp 0, 3600, "u", "m"⟩ JobState.pending
        [3600 * 1000000] = 1 ∧
    countFiresFrom ⟨0, parseTimestamp 0, 3600, "u", "m"⟩ JobState.pending
        [3600 * 1000000 + 1] = 0 :=
  ⟨(C5_grace_window ⟨0, []⟩ 0 "u" "m" (3600 * 1000000) []).2.1 (by decide) (by decide),
    ((C5_grace_window ⟨0, []⟩ 0 "u" "m" (3600 * 1000000 + 1) []).2.2 (by decide)).2⟩

/-- C6 (amended): a request whose latitude, longitude or lead-time field
is malformed (the Python `float`/`int` conversion raises) gets the
synchronous error page and no job is ever submitted to the scheduler
(the scheduler state is untouched).  Out-of-range but well-formed
coordinates are NOT rejected: the code performs no range validation
(see the counterexample). -/
theorem C6_malformed_aborts (req : RawRequest) (sats : List Satellite)
    (now : Micro) (st : SchedState)
    (h : req.latitude = none ∨ req.longitude = none ∨ req.notification_time = none) :
    home req sats now st = ⟨st, Outcome.validationError, false⟩ := by
  obtain ⟨la, lo, nt, uid⟩ := req
  cases la <;> cases lo <;> cases nt <;>
    first
      | rfl
      | (rcases h with h | h | h <;> exact Option.noConfusion h)

/-- Witness for C6 (amended claim): a request whose latitude text fails
`float` conversion yields the error page with the scheduler untouched. -/
theorem C6_witness :
    home ⟨none, some 0, some 30, "u"⟩ [] 0 ⟨0, []⟩ =
      ⟨⟨0, []⟩, Outcome.validationError, false⟩ :=
  C6_malformed_aborts ⟨none, some 0, some 30, "u"⟩ [] 0 ⟨0, []⟩ (Or.inl rfl)

/-- Counterexample to C6 as stated: latitude 200 is outside [-90, 90],
yet the request is not rejected — the handler runs to a success outcome
and a notification job IS scheduled. -/
theorem C6_counterexample :
    ¬ ((200 : ℚ) ≤ 90) ∧
    (home ⟨some 200, some 0, some 0, "u"⟩ [⟨"LANDSAT 8", [(3600000000, 0)]⟩]
        0 ⟨0, []⟩).outcome =
      Outcome.success [("LANDSAT 8", 3600)] [("LANDSAT 8", 25200)] ∧
    (home ⟨some 200, some 0, some 0, "u"⟩ [⟨"LANDSAT 8", [(3600000000, 0)]⟩]
        0 ⟨0, []⟩).sched.jobs.length = 1 :=
  ⟨by norm_num, by decide, by decide⟩

/-- C7: when zero scheduled notifications survive filtering (in
particular when the oracle returns nothing), the handler returns the
no-passes outcome — distinct from every success outcome — leaves the
scheduler untouched, and renders no map. -/
theorem C7_no_passes_outcome (lat lon : ℚ) (lead : Int) (now : Micro)
    (uid : String) (sats : List Satellite) (st : SchedState)
    (h : (process_passes lead now uid st (get_next_pass_times sats)).2.1 = []) :
    home ⟨some lat, some lon, some lead, uid⟩ sats now st =
      ⟨st, Outcome.noPasses, false⟩ ∧
    (∀ a b, (Outcome.noPasses : Outcome) ≠ Outcome.success a b) := by
  refine ⟨?_, fun a b hcon => Outcome.noConfusion hcon⟩
  have hst := process_passes_empty_state lead now uid (get_next_pass_times sats) st h
  simp only [home]
  rw [h, hst]
  rfl

/-- Witness for C7: an empty ephemeris answer produces the no-passes
page and an unchanged scheduler. -/
theorem C7_witness :
    home ⟨some 0, some 0, some 0, "u"⟩ [] 0 ⟨0, []⟩ =
      ⟨⟨0, []⟩, Outcome.noPasses, false⟩ ∧
    (∀ a b, (Outcome.noPasses : Outcome) ≠ Outcome.success a b) :=
  C7_no_passes_outcome 0 0 0 0 "u" [] ⟨0, []⟩ rfl

/-- C8: the map artifact is written exactly when the request succeeds —
`mapRendered` is true iff the outcome is a success — and every success
outcome carries a nonempty notification list and strictly grew the
scheduler's job set (at least one submission); no map is rendered on the
no-passes or validation outcomes. -/
theorem C8_map_iff_success (req : RawRequest) (sats : List Satellite)
    (now : Micro) (st : SchedState) :
    ((home req sats now st).mapRendered = true ↔
      ∃ a b, (home req sats now st).outcome = Outcome.success a b) ∧
    (∀ a b, (home req sats now st).outcome = Outcome.success a b →
      a ≠ [] ∧ st.jobs.length < (home req sats now st).sched.jobs.length) := by
  obtain ⟨la, lo, nt, uid⟩ := req
  cases la with
  | none => simp [home]
  | some lav =>
    cases lo with
    | none => simp [home]
    | some lov =>
      cases nt with
      | none => simp [home]
      | some lead =>
        by_cases he :
          (process_passes lead now uid st (get_next_pass_times sats)).2.1.isEmpty
        · have hh : home ⟨some lav, some lov, some lead, uid⟩ sats now st =
              ⟨(process_passes lead now uid st (get_next_pass_times sats)).1,
                Outcome.noPasses, false⟩ := by
            simp only [home]
            rw [if_pos he]
          rw [hh]
          exact ⟨by simp, fun a b hab => absurd hab (by simp)⟩
        · have hne :
              (process_passes lead now uid st (get_next_pass_times sats)).2.1 ≠ [] := by
            intro hnil
            rw [hnil] at he
            exact he rfl
          have hh : home ⟨some lav, some lov, some lead, uid⟩ sats now st =
              ⟨(process_passes lead now uid st (get_next_pass_times sats)).1,
                Outcome.success
                  (process_passes lead now uid st (get_next_pass_times sats)).2.1
                  (process_passes lead now uid st (get_next_pass_times sats)).2.2,
                true⟩ := by
            simp only [home]
            rw [if_neg he]
          rw [hh]
          refine ⟨⟨fun _ => ⟨_, _, rfl⟩, fun _ => rfl⟩, ?_⟩
          intro a b hab
          obtain ⟨ha, _⟩ := Outcome.success.inj hab
          refine ⟨ha ▸ hne, ?_⟩
          rw [process_passes_jobs_length lead now uid (get_next_pass_times sats) st]
          have hpos :
              0 < (process_passes lead now uid st (get_next_pass_times sats)).2.1.length :=
            List.length_pos.mpr hne
          omega

/-- Witness for C8: on a successful request the notification list is
nonempty and the scheduler gained a job. -/
theorem C8_witness :
    ([("LANDSAT 8", (3600 : Int))] : List (String × Int)) ≠ [] ∧
    (⟨0, []⟩ : SchedState).jobs.length <
      (home ⟨some 0, some 0, some 0, "u"⟩ [⟨"LANDSAT 8", [(3600000000, 0)]⟩]
        0 ⟨0, []⟩).sched.jobs.length :=
  (C8_map_iff_success ⟨some 0, some 0, some 0, "u"⟩
      [⟨"LANDSAT 8", [(3600000000, 0)]⟩] 0 ⟨0, []⟩).2
    [("LANDSAT 8", 3600)] [("LANDSAT 8", 25200)] (by decide)

/-- C9: scheduling twice with identical arguments creates two
independent jobs: both are appended, their generated identifiers
differ, and absent expiry (an in-window evaluation) each fires, so the
two jobs produce two notifications. -/
theorem C9_no_dedup (st : SchedState) (timeStr : Int) (uid msg : String) :
    (schedule_notification (schedule_notification st timeStr uid msg)
        timeStr uid msg).jobs =
      st.jobs ++ [⟨st.nextId, parseTimestamp timeStr, 3600, uid, msg⟩,
        ⟨st.nextId + 1, parseTimestamp timeStr, 3600, uid, msg⟩] ∧
    (⟨st.nextId, parseTimestamp timeStr, 3600, uid, msg⟩ : Job).id ≠
      (⟨st.nextId + 1, parseTimestamp timeStr, 3600, uid, msg⟩ : Job).id ∧
    (∀ t : Micro, parseTimestamp timeStr ≤ t →
      t ≤ parseTimestamp timeStr + 3600 * 1000000 →
      countFiresFrom ⟨st.nextId, parseTimestamp timeStr, 3600, uid, msg⟩
          JobState.pending [t] +
        countFiresFrom ⟨st.nextId + 1, parseTimestamp timeStr, 3600, uid, msg⟩
          JobState.pending [t] = 2) := by
  refine ⟨by simp [schedule_notification], ?_, ?_⟩
  · show st.nextId ≠ st.nextId + 1
    omega
  · intro t h1 h2
    rw [countFiresFrom_in_window _ t [] h1 h2, countFiresFrom_in_window _ t [] h1 h2]

/-- Witness for C9: two identical schedulings at fire time 0, evaluated
at time 0, fire twice in total. -/
theorem C9_witness :
    countFiresFrom ⟨0, parseTimestamp 0, 3600, "u", "m"⟩ JobState.pending [0] +
      countFiresFrom ⟨1, parseTimestamp 0, 3600, "u", "m"⟩ JobState.pending [0] = 2 :=
  (C9_no_dedup ⟨0, []⟩ 0 "u" "m").2.2 0 (by decide) (by decide)

/-- C10: serializing a timestamp with `'%Y-%m-%d %H:%M:%S'` and
re-parsing it yields the timestamp truncated to whole seconds, and every
fire time and data-availability time the pipeline emits is computed from
the second-truncated rise time of the originating raw rise event, not
from the raw rise time itself. -/
theorem C10_roundtrip_truncation :
    (∀ t : Micro, parseTimestamp (fmtTimestamp t) = truncSec t) ∧
    (∀ (lead : Int) (now : Micro) (uid : String) (st : SchedState)
        (sats : List Satellite) (p : String × Int),
      p ∈ (process_passes lead now uid st (get_next_pass_times sats)).2.1 →
      ∃ s ∈ sats, ∃ tRaw, firstRiseTime s.events = some tRaw ∧ p.1 = s.name ∧
        parseTimestamp p.2 = truncSec tRaw - lead * 60 * 1000000) ∧
    (∀ (lead : Int) (now : Micro) (uid : String) (st : SchedState)
        (sats : List Satellite) (p : String × Int),
      p ∈ (process_passes lead now uid st (get_next_pass_times sats)).2.2 →
      ∃ s ∈ sats, ∃ tRaw, firstRiseTime s.events = some tRaw ∧ p.1 = s.name ∧
        parseTimestamp p.2 = truncSec tRaw + 6 * 3600 * 1000000) := by
  refine ⟨parse_fmt, ?_, ?_⟩
  · intro lead now uid st sats p hp
    obtain ⟨q, hq, _, _, hp2⟩ := process_passes_mem_sched lead now uid _ st p hp
    obtain ⟨s, hs, tRaw, hrise, hpq⟩ := oracle_mem hq
    obtain ⟨h1, h2⟩ := Prod.mk.inj hpq
    refine ⟨s, hs, tRaw, hrise, h1, ?_⟩
    rw [hp2, parse_fmt_notify, h2, parse_fmt]
  · intro lead now uid st sats p hp
    obtain ⟨q, hq, _, _, hp2⟩ := process_passes_mem_da lead now uid _ st p hp
    obtain ⟨s, hs, tRaw, hrise, hpq⟩ := oracle_mem hq
    obtain ⟨h1, h2⟩ := Prod.mk.inj hpq
    refine ⟨s, hs, tRaw, hrise, h1, ?_⟩
    rw [hp2, parse_estimate, h2, parse_fmt]

/-- Witness for C10: a rise event at 3600.999999 s is serialized as
3600 s, and the emitted fire time is computed from the truncated
value. -/
theorem C10_witness :
    ∃ s ∈ ([⟨"LANDSAT 8", [(3600999999, 0)]⟩] : List Satellite), ∃ tRaw,
      firstRiseTime s.events = some tRaw ∧
      ("LANDSAT 8", (3600 : Int)).1 = s.name ∧
      parseTimestamp ("LANDSAT 8", (3600 : Int)).2 =
        truncSec tRaw - 0 * 60 * 1000000 :=
  C10_roundtrip_truncation.2.1 0 0 "u" ⟨0, []⟩
    [⟨"LANDSAT 8", [(3600999999, 0)]⟩] ("LANDSAT 8", 3600) (by decide)

end SatView
